import Mathlib

/-!
Verification of the crypto news dashboard (src/crypto_news.py) against its
specification.  The Python program is shallowly embedded: JSON values become
an inductive type, the outbound HTTP call and the completion call become
explicit parameters (`Option Json` for the fetch result, a function returning
`Except` for the completion endpoint), and Python exceptions become `Except`
or `Option` results.
-/

/-- JSON-like values as produced by `response.json()` and consumed by the
dashboard.  Numbers are modelled as integers; no code path inspected by the
claims distinguishes fractional numbers. -/
inductive Json where
  | null : Json
  | bool (b : Bool) : Json
  | num (n : Int) : Json
  | str (s : String) : Json
  | arr (elems : List Json) : Json
  | obj (fields : List (String × Json)) : Json

/-- `isinstance (x, dict)`. -/
def isDict : Json → Bool
  | Json.obj _ => true
  | _ => false

/-- `isinstance (x, list)`. -/
def isList : Json → Bool
  | Json.arr _ => true
  | _ => false

/-- `d.get (key)` on a dict (default `None` is modelled as `Option`).
On a non-dict this helper is never consulted by the embedding of the
source, which guards every use with an `isinstance` check. -/
def objGet (j : Json) (key : String) : Option Json :=
  match j with
  | Json.obj fields => fields.lookup key
  | _ => none

/-- `d.get (key, default)` on a dict. -/
def objGetD (j : Json) (key : String) (default : Json) : Json :=
  (objGet j key).getD default

mutual

/-- Python `str()` (and, with the flag set, `repr()`) of a JSON-like value,
as used by f-string interpolation.  Escaping of quote characters inside
strings is not modelled; no claim evaluates the printer on containers. -/
def pyStrAux : Bool → Json → String
  | _, Json.null => "None"
  | _, Json.bool b => if b then "True" else "False"
  | _, Json.num n => toString n
  | inRepr, Json.str s => if inRepr then "\x27" ++ s ++ "\x27" else s
  | _, Json.arr elems => "[" ++ pyStrList elems ++ "]"
  | _, Json.obj fields => "\x7b" ++ pyStrFields fields ++ "\x7d"

/-- Comma-separated `repr` of the elements of a Python list. -/
def pyStrList : List Json → String
  | [] => ""
  | [e] => pyStrAux true e
  | e :: rest => pyStrAux true e ++ ", " ++ pyStrList rest

/-- Comma-separated `repr` of the entries of a Python dict. -/
def pyStrFields : List (String × Json) → String
  | [] => ""
  | [(k, v)] => "\x27" ++ k ++ "\x27: " ++ pyStrAux true v
  | (k, v) :: rest => "\x27" ++ k ++ "\x27: " ++ pyStrAux true v ++ ", " ++ pyStrFields rest

end

/-- Python `str()` of a JSON-like value. -/
def pyStr (j : Json) : String := pyStrAux false j

/-- The `Language` enum of the source (the name `Language` itself is taken
by Mathlib). -/
inductive NewsLanguage where
  | EN : NewsLanguage
  | ZH : NewsLanguage

/-- `Language.value`: the provider language code. -/
def NewsLanguage.value : NewsLanguage → String
  | NewsLanguage.EN => "en"
  | NewsLanguage.ZH => "zh"

/-- The `NewsQuery` parameter bundle.  All three fields are annotated
`Optional` in the source, so they are `Option`-valued here. -/
structure NewsQuery where
  language : Option NewsLanguage
  limit : Option Int
  page : Option Int

/-- Python slicing `l[:stop]`: `l[:None]` is the whole list, a negative
stop counts from the end (clamped at zero). -/
def pySliceTo {α : Type} (l : List α) (stop : Option Int) : List α :=
  match stop with
  | none => l
  | some k => if 0 ≤ k then l.take k.toNat else l.take (l.length - (-k).toNat)

/-- `get_mock_articles()`: the fixed two-article fallback list. -/
def get_mock_articles : List Json :=
  [ Json.obj
      [ ("title", Json.str "Bitcoin Reaches New High"),
        ("description", Json.str "Bitcoin price surged 5% today as market sentiment turns bullish..."),
        ("pubDate", Json.str "2025-11-13T12:00:00.000Z"),
        ("source", Json.obj [("name", Json.str "CryptoNews")]),
        ("link", Json.str "https://example.com/bitcoin") ],
    Json.obj
      [ ("title", Json.str "Ethereum Merge Update"),
        ("description", Json.str "Ethereum upgrade drives adoption and network efficiency..."),
        ("pubDate", Json.str "2025-11-12T09:30:00.000Z"),
        ("source", Json.obj [("name", Json.str "CoinTelegraph")]),
        ("link", Json.str "https://example.com/ethereum") ] ]

/-- The envelope walk of `fetch_crypto_news`:
`data.get("data", \x7b\x7d).get("articles", []) if isinstance(data.get("data"), dict) else []`,
itself guarded by `isinstance(data, dict)` (the initial `articles = []`). -/
def extract_articles (data : Json) : Json :=
  if isDict data then
    match objGet data "data" with
    | some inner => if isDict inner then objGetD inner "articles" (Json.arr []) else Json.arr []
    | none => Json.arr []
  else Json.arr []

/-- `fetch_crypto_news(query)`.  The outcome of `requests.get` plus
`response.json()` is the `net` parameter: `none` means the request or the
JSON decoding raised (the `except` branch), `some data` is the decoded body.
The guard `not articles or not isinstance(articles, list)` sends everything
except a non-empty list to the mock fallback. -/
def fetch_crypto_news (query : NewsQuery) (net : Option Json) : List Json :=
  match net with
  | none => get_mock_articles
  | some data =>
    match extract_articles data with
    | Json.arr [] => get_mock_articles
    | Json.arr articles => pySliceTo articles query.limit
    | _ => get_mock_articles

/-- The article list of a well-formed, non-empty provider response;
`none` exactly when `fetch_crypto_news` takes the mock fallback on a
decoded body. -/
def usable_articles (data : Json) : Option (List Json) :=
  match extract_articles data with
  | Json.arr [] => none
  | Json.arr articles => some articles
  | _ => none

theorem fetch_some_eq (query : NewsQuery) (data : Json) :
    fetch_crypto_news query (some data) =
      (match usable_articles data with
       | some articles => pySliceTo articles query.limit
       | none => get_mock_articles) := by
  cases hE : extract_articles data
  case arr l => cases l <;> simp [fetch_crypto_news, usable_articles, hE]
  all_goals simp [fetch_crypto_news, usable_articles, hE]

theorem usable_articles_ne_nil (data : Json) (articles : List Json)
    (h : usable_articles data = some articles) : articles ≠ [] := by
  cases hE : extract_articles data
  case arr l =>
    cases l with
    | nil => simp [usable_articles, hE] at h
    | cons a t =>
      simp [usable_articles, hE] at h
      simp [← h]
  all_goals simp [usable_articles, hE] at h

theorem pySliceTo_subset {α : Type} (l : List α) (stop : Option Int) :
    pySliceTo l stop ⊆ l := by
  unfold pySliceTo
  cases stop with
  | none => exact List.Subset.refl l
  | some k =>
    by_cases hk : 0 ≤ k
    · simp [hk]; exact List.take_subset _ _
    · simp [hk]; exact List.take_subset _ _

/-- Claim C1: whenever the decoded provider body is not a mapping, its
`data` field is not a mapping, or the `articles` value under `data` is
absent, not a list, or the empty list (all of which make `extract_articles`
yield something other than a non-empty list), `fetch_crypto_news` returns
the fixed two-article mock list in full — the `limit` slice is not applied,
for every query, including queries with `limit` below 2. -/
theorem fetch_bad_envelope_returns_full_mock (query : NewsQuery) (data : Json)
    (h : extract_articles data = Json.arr [] ∨ isList (extract_articles data) = false) :
    fetch_crypto_news query (some data) = get_mock_articles ∧
    (fetch_crypto_news query (some data)).length = 2 ∧
    (fetch_crypto_news query (some data)).map (fun a => objGetD a "title" Json.null) =
      [Json.str "Bitcoin Reaches New High", Json.str "Ethereum Merge Update"] := by
  have hmock : fetch_crypto_news query (some data) = get_mock_articles := by
    rcases h with h1 | h2
    · simp [fetch_crypto_news, h1]
    · cases hE : extract_articles data
      case arr l => rw [hE] at h2; simp [isList] at h2
      all_goals simp [fetch_crypto_news, hE]
  refine ⟨hmock, ?_, ?_⟩
  · rw [hmock]; rfl
  · rw [hmock]; rfl

theorem fetch_bad_envelope_returns_full_mock_witness :
    (extract_articles Json.null = Json.arr [] ∨
       isList (extract_articles Json.null) = false) ∧
    fetch_crypto_news ⟨some NewsLanguage.EN, some 1, some 1⟩ (some Json.null) = get_mock_articles :=
  ⟨Or.inl rfl,
   (fetch_bad_envelope_returns_full_mock ⟨some NewsLanguage.EN, some 1, some 1⟩ Json.null
      (Or.inl rfl)).1⟩

/-- Claim C2: when the HTTP request or the JSON decoding raises (the `net`
parameter is `none`), `fetch_crypto_news` catches the exception and returns
the two-article mock list; being a total function of its inputs, it
propagates nothing to the caller. -/
theorem fetch_transport_error_returns_mock (query : NewsQuery) :
    fetch_crypto_news query none = get_mock_articles ∧
    (fetch_crypto_news query none).length = 2 :=
  ⟨rfl, rfl⟩

/-- Claim C3: with `limit ≥ 1` the fetch never returns an empty list —
every return path is either the two-entry mock list or a non-empty slice
of the provider article list. -/
theorem fetch_never_empty (query : NewsQuery) (net : Option Json) (k : Int)
    (hl : query.limit = some k) (hk : 1 ≤ k) :
    fetch_crypto_news query net ≠ [] ∧
    (fetch_crypto_news query net = get_mock_articles ∨
     ∃ data articles, net = some data ∧ usable_articles data = some articles ∧
       fetch_crypto_news query net = pySliceTo articles query.limit) := by
  cases net with
  | none =>
    refine ⟨?_, Or.inl rfl⟩
    simp [fetch_crypto_news, get_mock_articles]
  | some data =>
    cases hu : usable_articles data with
    | none =>
      have heq : fetch_crypto_news query (some data) = get_mock_articles := by
        rw [fetch_some_eq, hu]
      refine ⟨?_, Or.inl heq⟩
      rw [heq]
      simp [get_mock_articles]
    | some articles =>
      have hne := usable_articles_ne_nil data articles hu
      have heq : fetch_crypto_news query (some data) = pySliceTo articles query.limit := by
        rw [fetch_some_eq, hu]
      refine ⟨?_, Or.inr ⟨data, articles, rfl, hu, heq⟩⟩
      rw [heq]
      simp only [pySliceTo, hl]
      have h0 : 0 ≤ k := le_trans (by decide) hk
      simp only [h0, if_true]
      intro hnil
      rw [List.take_eq_nil_iff] at hnil
      rcases hnil with h | h
      · omega
      · exact hne h

theorem fetch_never_empty_witness :
    fetch_crypto_news ⟨some NewsLanguage.EN, some 5, some 1⟩ none ≠ [] :=
  (fetch_never_empty ⟨some NewsLanguage.EN, some 5, some 1⟩ none 5 rfl (by decide)).1

/-- Claim C4: with `limit ≥ 1`, when the decoded body holds a non-empty
list at `data.articles`, the fetch returns exactly the first `limit`
entries of that list, in provider order, so its length is at most
`limit`. -/
theorem fetch_live_truncates (query : NewsQuery) (data : Json)
    (articles : List Json) (k : Int)
    (hl : query.limit = some k) (hk : 1 ≤ k)
    (hu : usable_articles data = some articles) :
    fetch_crypto_news query (some data) = articles.take k.toNat ∧
    ((fetch_crypto_news query (some data)).length : Int) ≤ k := by
  have h0 : 0 ≤ k := le_trans (by decide) hk
  have heq : fetch_crypto_news query (some data) = articles.take k.toNat := by
    rw [fetch_some_eq, hu]
    simp only [pySliceTo, hl, h0, if_true]
  refine ⟨heq, ?_⟩
  rw [heq]
  have hle : (articles.take k.toNat).length ≤ k.toNat :=
    List.length_take_le k.toNat articles
  omega

theorem fetch_live_truncates_witness :
    fetch_crypto_news ⟨some NewsLanguage.EN, some 2, some 1⟩
      (some (Json.obj [("data", Json.obj [("articles",
        Json.arr [Json.num 1, Json.num 2, Json.num 3])])])) =
      List.take (2 : Int).toNat [Json.num 1, Json.num 2, Json.num 3] :=
  (fetch_live_truncates ⟨some NewsLanguage.EN, some 2, some 1⟩
    (Json.obj [("data", Json.obj [("articles",
      Json.arr [Json.num 1, Json.num 2, Json.num 3])])])
    [Json.num 1, Json.num 2, Json.num 3] 2 rfl (by decide) rfl).1

/-- Claim C10: `fetch_crypto_news` is a pure function of the (immutable)
query value, so the query is unchanged by the call; on the live path it
returns a slice of the received provider list whose every element is one
of the provider article values, unmodified, and on every other path it
returns the fixed mock list, which is built from scratch independently of
both the query and the provider data. -/
theorem fetch_preserves_inputs (query : NewsQuery) (net : Option Json) :
    (∃ data articles, net = some data ∧ usable_articles data = some articles ∧
        fetch_crypto_news query net = pySliceTo articles query.limit ∧
        ∀ a ∈ fetch_crypto_news query net, a ∈ articles) ∨
    fetch_crypto_news query net = get_mock_articles := by
  cases net with
  | none => exact Or.inr rfl
  | some data =>
    cases hu : usable_articles data with
    | none =>
      right
      rw [fetch_some_eq, hu]
    | some articles =>
      left
      have heq : fetch_crypto_news query (some data) = pySliceTo articles query.limit := by
        rw [fetch_some_eq, hu]
      exact ⟨data, articles, rfl, hu, heq, by
        intro a ha
        rw [heq] at ha
        exact pySliceTo_subset articles query.limit ha⟩

/-- `art.get(key, default)` as used inside `analyze_market`: on a non-dict
article Python raises `AttributeError`, modelled as the error branch. -/
def dictGet (j : Json) (key : String) (default : Json) : Except String Json :=
  match j with
  | Json.obj fields => Except.ok ((fields.lookup key).getD default)
  | _ => Except.error "AttributeError: object has no attribute get"

/-- The `for art in articles` loop of `analyze_market`, accumulating
`combined_text` through the f-string
`f"\x7bart.get(.title.,..)\x7d\n\x7bart.get(.description.,..)\x7d\n\n"`. -/
def combined_text_loop (articles : List Json) (acc : String) : Except String String :=
  match articles with
  | [] => Except.ok acc
  | art :: rest =>
    match dictGet art "title" (Json.str "") with
    | Except.error e => Except.error e
    | Except.ok t =>
      match dictGet art "description" (Json.str "") with
      | Except.error e => Except.error e
      | Except.ok dsc =>
        combined_text_loop rest (acc ++ pyStr t ++ "\n" ++ pyStr dsc ++ "\n\n")

/-- The `combined_text` accumulated by `analyze_market`, starting from the
empty string. -/
def combined_text (articles : List Json) : Except String String :=
  combined_text_loop articles ""

/-- The per-article contribution to `combined_text` (title, newline,
description, blank line), with the `.get` defaults substituting the empty
string. -/
def article_block (art : Json) : String :=
  pyStr (objGetD art "title" (Json.str "")) ++ "\n" ++
    pyStr (objGetD art "description" (Json.str "")) ++ "\n\n"

/-- Concatenation of a list of strings in list order. -/
def strJoin : List String → String
  | [] => ""
  | s :: rest => s ++ strJoin rest

/-- The fixed instruction text of the prompt f-string of `analyze_market`,
up to the interpolation of `combined_text` (the triple-quoted literal keeps
its leading newline and four-space indentation). -/
def prompt_intro : String :=
  "\n    Berdasarkan berita crypto terbaru berikut, berikan analisis singkat untuk market crypto:\n    - Sentimen pasar (Bullish / Bearish / Netral)\n    - Tren umum (naik / turun / stabil)\n    - Saran singkat (Buy / Hold / Watch)\n    Jawab dengan jelas, mudah dipahami, dan tampilkan dengan format yang rapi dan profesional.\n\n    Berita:\n    "

/-- The full prompt of `analyze_market` for a given `combined_text`. -/
def prompt_of (combined : String) : String :=
  prompt_intro ++ combined ++ "\n    "

/-- One entry of the `messages` argument of the completion call. -/
structure ChatMessage where
  role : String
  content : String

/-- The `message` of one returned choice; its `content` may be `None`. -/
structure ChatChoiceMessage where
  content : Json

/-- One element of `response.choices`. -/
structure ChatChoice where
  message : ChatChoiceMessage

/-- The completion response object. -/
structure ChatCompletion where
  choices : List ChatChoice

/-- The `messages` list handed to `client.chat.completions.create`: a single
user-role message holding the assembled prompt (or the propagated error from
building `combined_text`). -/
def analyze_market_request (articles : List Json) : Except String (List ChatMessage) :=
  match combined_text articles with
  | Except.error e => Except.error e
  | Except.ok c => Except.ok [ChatMessage.mk "user" (prompt_of c)]

/-- `analyze_market(articles)`.  The completion endpoint is the `complete`
parameter; an exception from the call is its error branch and is passed
through unguarded, as are the `choices[0]` lookup on an empty list and the
`.strip()` on a non-string content. -/
def analyze_market (articles : List Json)
    (complete : List ChatMessage → Except String ChatCompletion) : Except String String :=
  match analyze_market_request articles with
  | Except.error e => Except.error e
  | Except.ok msgs =>
    match complete msgs with
    | Except.error e => Except.error e
    | Except.ok resp =>
      match resp.choices with
      | [] => Except.error "IndexError: list index out of range"
      | choice :: _ =>
        match choice.message.content with
        | Json.str s => Except.ok s.trim
        | _ => Except.error "AttributeError: content has no attribute strip"

/-- `needle` occurs contiguously inside `hay`. -/
def ContainsStr (hay needle : String) : Prop :=
  ∃ p q, hay = p ++ needle ++ q

theorem dictGet_of_isDict (a : Json) (key : String) (d : Json) (h : isDict a = true) :
    dictGet a key d = Except.ok (objGetD a key d) := by
  cases a
  case obj fields => rfl
  all_goals simp [isDict] at h

theorem strJoin_append (xs ys : List String) :
    strJoin (xs ++ ys) = strJoin xs ++ strJoin ys := by
  induction xs with
  | nil => simp [strJoin]
  | cons s rest ih => simp [strJoin, ih, String.append_assoc]

theorem combined_text_loop_ok (articles : List Json) :
    ∀ acc : String, (∀ a ∈ articles, isDict a = true) →
      combined_text_loop articles acc =
        Except.ok (acc ++ strJoin (articles.map article_block)) := by
  induction articles with
  | nil =>
    intro acc h
    simp [combined_text_loop, strJoin]
  | cons a rest ih =>
    intro acc h
    have ha : isDict a = true := h a (by simp)
    have hrest : ∀ x ∈ rest, isDict x = true := fun x hx => h x (by simp [hx])
    simp only [combined_text_loop, dictGet_of_isDict a "title" (Json.str "") ha,
      dictGet_of_isDict a "description" (Json.str "") ha]
    rw [ih _ hrest]
    simp [strJoin, article_block, String.append_assoc]

theorem combined_text_ok (articles : List Json)
    (h : ∀ a ∈ articles, isDict a = true) :
    combined_text articles = Except.ok (strJoin (articles.map article_block)) := by
  have hl := combined_text_loop_ok articles "" h
  simpa [combined_text] using hl

/-- Claim C9: building the prompt text is total over article lists whose
elements are key-value mappings — `combined_text` succeeds on every such
list, and an article missing the `title` (or `description`) key contributes
the empty string in place of that field. -/
theorem combined_text_total_on_dicts (articles : List Json)
    (h : ∀ a ∈ articles, isDict a = true) :
    combined_text articles = Except.ok (strJoin (articles.map article_block)) ∧
    (∀ a : Json, isDict a = true → objGet a "title" = none →
        pyStr (objGetD a "title" (Json.str "")) = "") ∧
    (∀ a : Json, isDict a = true → objGet a "description" = none →
        pyStr (objGetD a "description" (Json.str "")) = "") := by
  refine ⟨combined_text_ok articles h, ?_, ?_⟩
  · intro a ha hnone
    simp [objGetD, hnone, pyStr, pyStrAux]
  · intro a ha hnone
    simp [objGetD, hnone, pyStr, pyStrAux]

theorem combined_text_total_on_dicts_witness :
    combined_text [Json.obj []] =
      Except.ok (strJoin ([Json.obj []].map article_block)) :=
  (combined_text_total_on_dicts [Json.obj []]
    (by intro a ha; rw [List.mem_singleton] at ha; subst ha; rfl)).1

/-- Claim C5: on a non-empty list of mapping articles, `analyze_market`
sends exactly one message, with role `user`, whose prompt embeds
`combined_text` — the titles and descriptions concatenated in list order,
title and description separated by newlines — so every article title and
every article description occurs as a substring of the prompt. -/
theorem analyze_market_single_user_message (articles : List Json)
    (_hne : articles ≠ [])
    (hdict : ∀ a ∈ articles, isDict a = true) :
    combined_text articles = Except.ok (strJoin (articles.map article_block)) ∧
    analyze_market_request articles =
      Except.ok [ChatMessage.mk "user"
        (prompt_of (strJoin (articles.map article_block)))] ∧
    (∀ a ∈ articles,
      (∀ t, objGetD a "title" (Json.str "") = Json.str t →
         ContainsStr (prompt_of (strJoin (articles.map article_block))) t) ∧
      (∀ d, objGetD a "description" (Json.str "") = Json.str d →
         ContainsStr (prompt_of (strJoin (articles.map article_block))) d)) := by
  have hct := combined_text_ok articles hdict
  refine ⟨hct, by simp [analyze_market_request, hct], ?_⟩
  intro a ha
  obtain ⟨pre, post, hsplit⟩ := List.append_of_mem ha
  have hj : strJoin (articles.map article_block) =
      strJoin (pre.map article_block) ++
        (article_block a ++ strJoin (post.map article_block)) := by
    rw [hsplit, List.map_append, strJoin_append]
    simp [strJoin]
  constructor
  · intro t ht
    refine ⟨prompt_intro ++ strJoin (pre.map article_block),
      "\n" ++ pyStr (objGetD a "description" (Json.str "")) ++ "\n\n" ++
        strJoin (post.map article_block) ++ "\n    ", ?_⟩
    rw [prompt_of, hj, article_block, ht]
    simp [pyStr, pyStrAux, String.append_assoc]
  · intro d hd
    refine ⟨prompt_intro ++ strJoin (pre.map article_block) ++
        pyStr (objGetD a "title" (Json.str "")) ++ "\n",
      "\n\n" ++ strJoin (post.map article_block) ++ "\n    ", ?_⟩
    rw [prompt_of, hj, article_block, hd]
    simp [pyStr, pyStrAux, String.append_assoc]

theorem analyze_market_single_user_message_witness :
    analyze_market_request
        [Json.obj [("title", Json.str "T1"), ("description", Json.str "D1")]] =
      Except.ok [ChatMessage.mk "user"
        (prompt_of (strJoin
          ([Json.obj [("title", Json.str "T1"), ("description", Json.str "D1")]].map
            article_block)))] :=
  (analyze_market_single_user_message
    [Json.obj [("title", Json.str "T1"), ("description", Json.str "D1")]]
    (by simp)
    (by intro a ha; rw [List.mem_singleton] at ha; subst ha; rfl)).2.1

/-- Claim C6: `analyze_market` is unguarded — an error from the completion
call is returned to the caller unchanged, and a failure while reading the
first choice's message content (an empty `choices` list, or a content value
that is not a string and so has no `.strip()`) also propagates as an error;
no path returns a fallback summary.  On success the result is the content
string of the first returned choice with leading and trailing whitespace
stripped. -/
theorem analyze_market_unguarded :
    (∀ (articles : List Json)
       (complete : List ChatMessage → Except String ChatCompletion)
       (c : String) (e : String),
       combined_text articles = Except.ok c →
       complete [ChatMessage.mk "user" (prompt_of c)] = Except.error e →
       analyze_market articles complete = Except.error e) ∧
    (∀ (articles : List Json)
       (complete : List ChatMessage → Except String ChatCompletion)
       (c : String) (resp : ChatCompletion) (choice : ChatChoice)
       (rest : List ChatChoice) (s : String),
       combined_text articles = Except.ok c →
       complete [ChatMessage.mk "user" (prompt_of c)] = Except.ok resp →
       resp.choices = choice :: rest →
       choice.message.content = Json.str s →
       analyze_market articles complete = Except.ok s.trim) ∧
    (∀ (articles : List Json)
       (complete : List ChatMessage → Except String ChatCompletion)
       (c : String) (resp : ChatCompletion),
       combined_text articles = Except.ok c →
       complete [ChatMessage.mk "user" (prompt_of c)] = Except.ok resp →
       resp.choices = [] →
       analyze_market articles complete =
         Except.error "IndexError: list index out of range") ∧
    (∀ (articles : List Json)
       (complete : List ChatMessage → Except String ChatCompletion)
       (c : String) (resp : ChatCompletion) (choice : ChatChoice)
       (rest : List ChatChoice),
       combined_text articles = Except.ok c →
       complete [ChatMessage.mk "user" (prompt_of c)] = Except.ok resp →
       resp.choices = choice :: rest →
       (∀ s : String, choice.message.content ≠ Json.str s) →
       analyze_market articles complete =
         Except.error "AttributeError: content has no attribute strip") := by
  refine ⟨?_, ?_, ?_, ?_⟩
  · intro articles complete c e hct hcall
    simp [analyze_market, analyze_market_request, hct, hcall]
  · intro articles complete c resp choice rest s hct hcall hchoices hcontent
    simp [analyze_market, analyze_market_request, hct, hcall, hchoices, hcontent]
  · intro articles complete c resp hct hcall hchoices
    simp [analyze_market, analyze_market_request, hct, hcall, hchoices]
  · intro articles complete c resp choice rest hct hcall hchoices hcontent
    cases hval : choice.message.content
    case str s => exact absurd hval (hcontent s)
    all_goals
      simp [analyze_market, analyze_market_request, hct, hcall, hchoices, hval]

theorem analyze_market_unguarded_witness :
    (analyze_market [] (fun _ => Except.error "boom") = Except.error "boom") ∧
    (analyze_market []
        (fun _ => Except.ok (ChatCompletion.mk
          [ChatChoice.mk (ChatChoiceMessage.mk (Json.str " Bullish "))])) =
      Except.ok (String.trim " Bullish ")) ∧
    (analyze_market [] (fun _ => Except.ok (ChatCompletion.mk [])) =
      Except.error "IndexError: list index out of range") ∧
    (analyze_market []
        (fun _ => Except.ok (ChatCompletion.mk
          [ChatChoice.mk (ChatChoiceMessage.mk Json.null)])) =
      Except.error "AttributeError: content has no attribute strip") :=
  ⟨analyze_market_unguarded.1 [] (fun _ => Except.error "boom") "" "boom" rfl rfl,
   analyze_market_unguarded.2.1 []
     (fun _ => Except.ok (ChatCompletion.mk
       [ChatChoice.mk (ChatChoiceMessage.mk (Json.str " Bullish "))]))
     "" (ChatCompletion.mk
       [ChatChoice.mk (ChatChoiceMessage.mk (Json.str " Bullish "))])
     (ChatChoice.mk (ChatChoiceMessage.mk (Json.str " Bullish "))) []
     " Bullish " rfl rfl rfl rfl,
   analyze_market_unguarded.2.2.1 []
     (fun _ => Except.ok (ChatCompletion.mk [])) ""
     (ChatCompletion.mk []) rfl rfl rfl,
   analyze_market_unguarded.2.2.2 []
     (fun _ => Except.ok (ChatCompletion.mk
       [ChatChoice.mk (ChatChoiceMessage.mk Json.null)]))
     "" (ChatCompletion.mk [ChatChoice.mk (ChatChoiceMessage.mk Json.null)])
     (ChatChoice.mk (ChatChoiceMessage.mk Json.null)) [] rfl rfl rfl
     (fun _ h => Json.noConfusion h)⟩

/-- Numeric value of a digit character. -/
def digitVal (c : Char) : Nat := c.toNat - 48

/-- Two consecutive digit characters read as a two-digit number. -/
def twoDigits (a b : Char) : Option Nat :=
  if a.isDigit && b.isDigit then some (digitVal a * 10 + digitVal b) else none

/-- A single digit character read as a number. -/
def oneDigit (a : Char) : Option Nat :=
  if a.isDigit then some (digitVal a) else none

/-- Bounds check used for the numeric field ranges of the format regex. -/
def between (lo hi v : Nat) : Bool :=
  decide (lo ≤ v) && decide (v ≤ hi)

/-- A 1-or-2-digit numeric field of CPython `_strptime` followed by a
literal character: the two-digit regex alternatives are tried first, and
the engine backtracks to the one-digit alternative exactly when the
two-digit form or the literal character after it fails to match. -/
def fieldLit (ok2 ok1 : Nat → Bool) (lit : Char → Bool) :
    List Char → Option (Nat × List Char)
  | a :: b :: c :: rest =>
    (match twoDigits a b with
     | some v =>
       if ok2 v && lit c then some (v, rest)
       else
         match oneDigit a with
         | some w => if ok1 w && lit b then some (w, c :: rest) else none
         | none => none
     | none =>
       match oneDigit a with
       | some w => if ok1 w && lit b then some (w, c :: rest) else none
       | none => none)
  | [a, b] =>
    (match oneDigit a with
     | some w => if ok1 w && lit b then some (w, []) else none
     | none => none)
  | _ => none

/-- The final 1-or-2-digit field of the format, which must exhaust the
input (`strptime` rejects unconverted trailing data). -/
def fieldEnd (ok2 ok1 : Nat → Bool) : List Char → Option Nat
  | [a] =>
    (match oneDigit a with
     | some w => if ok1 w then some w else none
     | none => none)
  | [a, b] =>
    (match twoDigits a b with
     | some v => if ok2 v then some v else none
     | none => none)
  | _ => none

/-- Gregorian leap year, as `datetime` computes it. -/
def isLeap (y : Nat) : Bool :=
  y % 4 == 0 && (y % 100 != 0 || y % 400 == 0)

/-- Days in a month, as the `datetime` constructor validates them. -/
def daysInMonth (y m : Nat) : Nat :=
  if m == 2 then (if isLeap y then 29 else 28)
  else if m == 4 || m == 6 || m == 9 || m == 11 then 30 else 31

/-- A `datetime.datetime` value (the fields the display format uses). -/
structure PyDatetime where
  year : Nat
  month : Nat
  day : Nat
  hour : Nat
  minute : Nat
  second : Nat

/-- The `datetime` constructor validation performed at the end of
`strptime`: year 1..9999, calendar-valid month and day, hour below 24,
minute and second below 60 (the regex alone admits seconds 60 and 61,
which the constructor then rejects). -/
def mkDatetime (y mo d h mi s : Nat) : Option PyDatetime :=
  if between 1 9999 y && between 1 12 mo && between 1 (daysInMonth y mo) d &&
      decide (h ≤ 23) && decide (mi ≤ 59) && decide (s ≤ 59)
  then some (PyDatetime.mk y mo d h mi s) else none

/-- `datetime.strptime(s, "%Y-%m-%dT%H:%M:%S")` over the characters of
`s`.  CPython compiles the format with `re.IGNORECASE`, so the literal `T`
also matches `t`; `%Y` is exactly four digits; month and day match two
digits (01-12, 01-31) or one digit (1-9); hour matches 00-23 or one digit;
minute 00-59 or one digit; second 00-61 or one digit.  The parsed fields
then pass through the `datetime` constructor. -/
def strptime19 (cs : List Char) : Option PyDatetime :=
  match cs with
  | y1 :: y2 :: y3 :: y4 :: '-' :: r1 =>
    (match twoDigits y1 y2, twoDigits y3 y4 with
     | some hi, some lo =>
       (match fieldLit (between 1 12) (between 1 9) (fun c => c == '-') r1 with
        | some (mo, r2) =>
          (match fieldLit (between 1 31) (between 1 9)
              (fun c => c == 'T' || c == 't') r2 with
           | some (d, r3) =>
             (match fieldLit (fun v => decide (v ≤ 23)) (fun v => decide (v ≤ 9))
                 (fun c => c == ':') r3 with
              | some (h, r4) =>
                (match fieldLit (fun v => decide (v ≤ 59)) (fun v => decide (v ≤ 9))
                    (fun c => c == ':') r4 with
                 | some (mi, r5) =>
                   (match fieldEnd (fun v => decide (v ≤ 61)) (fun v => decide (v ≤ 9)) r5 with
                    | some s => mkDatetime (hi * 100 + lo) mo d h mi s
                    | none => none)
                 | none => none)
              | none => none)
           | none => none)
        | none => none)
     | _, _ => none)
  | _ => none

/-- Zero-padded two-digit rendering, as `strftime` `%d`, `%H`, `%M` pad. -/
def pad2 (n : Nat) : String :=
  if n < 10 then "0" ++ toString n else toString n

/-- `strftime` `%b` month abbreviations in the C locale. -/
def monthAbbrev : Nat → String
  | 1 => "Jan"
  | 2 => "Feb"
  | 3 => "Mar"
  | 4 => "Apr"
  | 5 => "May"
  | 6 => "Jun"
  | 7 => "Jul"
  | 8 => "Aug"
  | 9 => "Sep"
  | 10 => "Oct"
  | 11 => "Nov"
  | 12 => "Dec"
  | _ => ""

/-- `dt.strftime("%d %b %Y, %H:%M")`. -/
def strftime_display (dt : PyDatetime) : String :=
  pad2 dt.day ++ " " ++ monthAbbrev dt.month ++ " " ++ toString dt.year ++
    ", " ++ pad2 dt.hour ++ ":" ++ pad2 dt.minute

/-- The date-formatting step applied to `pubDate` in both the highlight
card and the news cards: an empty (or absent, defaulted-to-empty) value is
left alone, otherwise `strptime` runs on the first 19 characters and on
success the display format replaces the raw string, while the bare
`except: pass` keeps the raw string on any parse failure. -/
def format_pub_date (pub_date : String) : String :=
  if pub_date = "" then pub_date
  else
    match strptime19 (pub_date.toList.take 19) with
    | some dt => strftime_display dt
    | none => pub_date

/-- Modelled from the claim wording of C7: the first 19 characters of the
string match the fixed-width textual pattern `YYYY-MM-DDTHH:MM:SS` —
digits in the numeric positions and the literal separators in between. -/
def matches_pattern_19 (s : String) : Bool :=
  match s.toList.take 19 with
  | [y1, y2, y3, y4, s1, m1, m2, s2, a1, a2, tc, h1, h2, s3, n1, n2, s4, e1, e2] =>
    ([y1, y2, y3, y4, m1, m2, a1, a2, h1, h2, n1, n2, e1, e2].all Char.isDigit) &&
      s1 == '-' && s2 == '-' && tc == 'T' && s3 == ':' && s4 == ':'
  | _ => false

/-- The fixed-width textual pattern of `matches_pattern_19` strengthened
with the field validity the `strptime` parse enforces: in-range month,
calendar-valid day, hour below 24, minute and second below 60, year at
least 1. -/
def matches_valid_19 (s : String) : Bool :=
  match s.toList.take 19 with
  | [y1, y2, y3, y4, s1, m1, m2, s2, a1, a2, tc, h1, h2, s3, n1, n2, s4, e1, e2] =>
    (([y1, y2, y3, y4, m1, m2, a1, a2, h1, h2, n1, n2, e1, e2].all Char.isDigit) &&
       s1 == '-' && s2 == '-' && tc == 'T' && s3 == ':' && s4 == ':') &&
    (between 1 9999 ((digitVal y1 * 10 + digitVal y2) * 100 +
         (digitVal y3 * 10 + digitVal y4)) &&
       between 1 12 (digitVal m1 * 10 + digitVal m2) &&
       between 1 (daysInMonth ((digitVal y1 * 10 + digitVal y2) * 100 +
           (digitVal y3 * 10 + digitVal y4)) (digitVal m1 * 10 + digitVal m2))
         (digitVal a1 * 10 + digitVal a2) &&
       decide (digitVal h1 * 10 + digitVal h2 ≤ 23) &&
       decide (digitVal n1 * 10 + digitVal n2 ≤ 59) &&
       decide (digitVal e1 * 10 + digitVal e2 ≤ 59))
  | _ => false

/-- Whitespace stripping at both ends, as `int(str)` performs before
parsing (ASCII whitespace; exotic Unicode space forms are not modelled). -/
def stripWs (cs : List Char) : List Char :=
  ((cs.dropWhile Char.isWhitespace).reverse.dropWhile Char.isWhitespace).reverse

/-- Digits of a Python integer literal after the first one, allowing a
single underscore between two digits. -/
def pyIntRest (cs : List Char) (acc : Nat) : Option Nat :=
  match cs with
  | [] => some acc
  | c :: rest =>
    if c.isDigit then pyIntRest rest (acc * 10 + digitVal c)
    else if c == '_' then
      match rest with
      | d :: rest2 =>
        if d.isDigit then pyIntRest rest2 (acc * 10 + digitVal d) else none
      | [] => none
    else none

/-- An unsigned Python integer literal: a digit followed by digits with
optional single underscores between them. -/
def pyIntAbs (cs : List Char) : Option Nat :=
  match cs with
  | c :: rest => if c.isDigit then pyIntRest rest (digitVal c) else none
  | [] => none

/-- `int(text)`: optional surrounding whitespace, an optional sign, then a
digit sequence; anything else raises `ValueError`, modelled as `none`.
Non-ASCII digit forms are not modelled. -/
def pyInt (text : String) : Option Int :=
  match stripWs text.toList with
  | '+' :: rest => (pyIntAbs rest).map (fun n => (n : Int))
  | '-' :: rest => (pyIntAbs rest).map (fun n => -(n : Int))
  | cs => (pyIntAbs cs).map (fun n => (n : Int))

/-- The limit-parsing block of the UI: `int(limit)` with values below 1
replaced by 5, and a `ValueError` replaced by 5. -/
def effective_limit (text : String) : Int :=
  match pyInt text with
  | some n => if n < 1 then 5 else n
  | none => 5

/-- Claim C8: the effective article limit is the integer parse of the text
field when that parse succeeds with a value of at least 1; it is 5 when the
text does not parse as an integer (such as `abc`) and also when the parsed
value is below 1 (such as `0`). -/
theorem effective_limit_spec :
    (∀ (text : String) (n : Int),
       pyInt text = some n → 1 ≤ n → effective_limit text = n) ∧
    (∀ text : String, pyInt text = none → effective_limit text = 5) ∧
    (∀ (text : String) (n : Int),
       pyInt text = some n → n < 1 → effective_limit text = 5) ∧
    effective_limit "abc" = 5 ∧
    effective_limit "0" = 5 := by
  refine ⟨?_, ?_, ?_, rfl, rfl⟩
  · intro text n h h1
    rw [effective_limit, h]
    simp only [if_neg (by omega : ¬ n < 1)]
  · intro text h
    rw [effective_limit, h]
  · intro text n h h1
    rw [effective_limit, h]
    simp only [if_pos h1]

theorem effective_limit_spec_witness :
    effective_limit "7" = 7 :=
  effective_limit_spec.1 "7" 7 rfl (by decide)

theorem twoDigits_eq (a b : Char) (ha : a.isDigit = true) (hb : b.isDigit = true) :
    twoDigits a b = some (digitVal a * 10 + digitVal b) := by
  simp [twoDigits, ha, hb]

theorem fieldLit_two (ok2 ok1 : Nat → Bool) (lit : Char → Bool) (a b c : Char)
    (rest : List Char) (ha : a.isDigit = true) (hb : b.isDigit = true)
    (h2 : ok2 (digitVal a * 10 + digitVal b) = true) (hl : lit c = true) :
    fieldLit ok2 ok1 lit (a :: b :: c :: rest) =
      some (digitVal a * 10 + digitVal b, rest) := by
  simp [fieldLit, twoDigits, ha, hb, h2, hl]

theorem fieldEnd_two (ok2 ok1 : Nat → Bool) (a b : Char)
    (ha : a.isDigit = true) (hb : b.isDigit = true)
    (h2 : ok2 (digitVal a * 10 + digitVal b) = true) :
    fieldEnd ok2 ok1 [a, b] = some (digitVal a * 10 + digitVal b) := by
  simp [fieldEnd, twoDigits, ha, hb, h2]

theorem daysInMonth_le_31 (y m : Nat) : daysInMonth y m ≤ 31 := by
  unfold daysInMonth
  split_ifs <;> omega

theorem strptime19_fixed
    (y1 y2 y3 y4 m1 m2 a1 a2 b1 b2 n1 n2 e1 e2 : Char)
    (hy1 : y1.isDigit = true) (hy2 : y2.isDigit = true)
    (hy3 : y3.isDigit = true) (hy4 : y4.isDigit = true)
    (hm1 : m1.isDigit = true) (hm2 : m2.isDigit = true)
    (ha1 : a1.isDigit = true) (ha2 : a2.isDigit = true)
    (hb1 : b1.isDigit = true) (hb2 : b2.isDigit = true)
    (hn1 : n1.isDigit = true) (hn2 : n2.isDigit = true)
    (he1 : e1.isDigit = true) (he2 : e2.isDigit = true)
    (hmo : between 1 12 (digitVal m1 * 10 + digitVal m2) = true)
    (hda : between 1 31 (digitVal a1 * 10 + digitVal a2) = true)
    (hho : decide (digitVal b1 * 10 + digitVal b2 ≤ 23) = true)
    (hmi : decide (digitVal n1 * 10 + digitVal n2 ≤ 59) = true)
    (hse : decide (digitVal e1 * 10 + digitVal e2 ≤ 61) = true) :
    strptime19 [y1, y2, y3, y4, '-', m1, m2, '-', a1, a2, 'T', b1, b2, ':', n1, n2, ':', e1, e2] =
      mkDatetime ((digitVal y1 * 10 + digitVal y2) * 100 + (digitVal y3 * 10 + digitVal y4))
        (digitVal m1 * 10 + digitVal m2) (digitVal a1 * 10 + digitVal a2)
        (digitVal b1 * 10 + digitVal b2) (digitVal n1 * 10 + digitVal n2)
        (digitVal e1 * 10 + digitVal e2) := by
  simp only [strptime19,
    twoDigits_eq y1 y2 hy1 hy2, twoDigits_eq y3 y4 hy3 hy4,
    fieldLit_two (between 1 12) (between 1 9) (fun c => c == '-') m1 m2 '-'
      [a1, a2, 'T', b1, b2, ':', n1, n2, ':', e1, e2] hm1 hm2 hmo (by rfl),
    fieldLit_two (between 1 31) (between 1 9) (fun c => c == 'T' || c == 't') a1 a2 'T'
      [b1, b2, ':', n1, n2, ':', e1, e2] ha1 ha2 hda (by rfl),
    fieldLit_two (fun v => decide (v ≤ 23)) (fun v => decide (v ≤ 9)) (fun c => c == ':') b1 b2 ':'
      [n1, n2, ':', e1, e2] hb1 hb2 hho (by rfl),
    fieldLit_two (fun v => decide (v ≤ 59)) (fun v => decide (v ≤ 9)) (fun c => c == ':') n1 n2 ':'
      [e1, e2] hn1 hn2 hmi (by rfl),
    fieldEnd_two (fun v => decide (v ≤ 61)) (fun v => decide (v ≤ 9)) e1 e2 he1 he2 hse]

/-- Claim C7 (amended): the date-formatting step never raises; an empty or
absent `pubDate` is shown unchanged; a `pubDate` whose first 19 characters
parse under CPython `strptime` with format `%Y-%m-%dT%H:%M:%S` — which
tolerates one-digit month, day, hour, minute and second, a lowercase `t`,
and enforces calendar validity — is reformatted to `DD Mon YYYY, HH:MM`,
and in particular every string whose first 19 characters match the
fixed-width pattern with in-range, calendar-valid fields is reformatted;
every other `pubDate` is passed through unchanged, so the mock timestamp
`2025-11-13T12:00:00.000Z` displays as `13 Nov 2025, 12:00`. -/
theorem format_pub_date_amended :
    (∀ (s : String) (dt : PyDatetime),
       strptime19 (s.toList.take 19) = some dt →
       format_pub_date s = strftime_display dt) ∧
    (∀ s : String, strptime19 (s.toList.take 19) = none → format_pub_date s = s) ∧
    format_pub_date "" = "" ∧
    (∀ s : String, matches_valid_19 s = true →
       ∃ dt, strptime19 (s.toList.take 19) = some dt ∧
         format_pub_date s = strftime_display dt) ∧
    format_pub_date "2025-11-13T12:00:00.000Z" = "13 Nov 2025, 12:00" := by
  have hsome : ∀ (s : String) (dt : PyDatetime),
      strptime19 (s.toList.take 19) = some dt →
      format_pub_date s = strftime_display dt := by
    intro s dt h
    by_cases hs : s = ""
    · subst hs
      have h0 : strptime19 (("" : String).toList.take 19) = none := rfl
      rw [h0] at h
      exact Option.noConfusion h
    · simp only [String.toList] at h
      simp [format_pub_date, hs, h]
  have hnone : ∀ s : String,
      strptime19 (s.toList.take 19) = none → format_pub_date s = s := by
    intro s h
    by_cases hs : s = ""
    · subst hs; rfl
    · simp only [String.toList] at h
      simp [format_pub_date, hs, h]
  refine ⟨hsome, hnone, rfl, ?_, by rfl⟩
  intro s h
  unfold matches_valid_19 at h
  split at h
  next y1 y2 y3 y4 s1 m1 m2 s2 a1 a2 tc b1 b2 s3 n1 n2 s4 e1 e2 heq =>
    simp only [Bool.and_eq_true, List.all_cons, List.all_nil, Bool.and_true, beq_iff_eq] at h
    obtain ⟨⟨⟨⟨⟨⟨hD, hsp1⟩, hsp2⟩, htc⟩, hsp3⟩, hsp4⟩,
      ⟨⟨⟨⟨hyB, hmoB⟩, hdaB⟩, hhoB⟩, hmiB⟩, hseB⟩ := h
    obtain ⟨hdy1, hdy2, hdy3, hdy4, hdm1, hdm2, hda1, hda2,
      hdb1, hdb2, hdn1, hdn2, hde1, hde2⟩ := hD
    subst hsp1
    subst hsp2
    subst htc
    subst hsp3
    subst hsp4
    have hseP : digitVal e1 * 10 + digitVal e2 ≤ 59 := of_decide_eq_true hseB
    have hse61 : decide (digitVal e1 * 10 + digitVal e2 ≤ 61) = true :=
      decide_eq_true (by omega)
    have hdaP : 1 ≤ digitVal a1 * 10 + digitVal a2 ∧
        digitVal a1 * 10 + digitVal a2 ≤
          daysInMonth ((digitVal y1 * 10 + digitVal y2) * 100 +
              (digitVal y3 * 10 + digitVal y4))
            (digitVal m1 * 10 + digitVal m2) := by
      simpa [between, Bool.and_eq_true, decide_eq_true_eq] using hdaB
    have hd31 : between 1 31 (digitVal a1 * 10 + digitVal a2) = true := by
      have hmax := daysInMonth_le_31
        ((digitVal y1 * 10 + digitVal y2) * 100 + (digitVal y3 * 10 + digitVal y4))
        (digitVal m1 * 10 + digitVal m2)
      simp only [between, Bool.and_eq_true, decide_eq_true_eq]
      omega
    have hp := strptime19_fixed y1 y2 y3 y4 m1 m2 a1 a2 b1 b2 n1 n2 e1 e2
      hdy1 hdy2 hdy3 hdy4 hdm1 hdm2 hda1 hda2 hdb1 hdb2 hdn1 hdn2 hde1 hde2
      hmoB hd31 hhoB hmiB hse61
    have hparse : strptime19 (s.toList.take 19) =
        some (PyDatetime.mk
          ((digitVal y1 * 10 + digitVal y2) * 100 + (digitVal y3 * 10 + digitVal y4))
          (digitVal m1 * 10 + digitVal m2) (digitVal a1 * 10 + digitVal a2)
          (digitVal b1 * 10 + digitVal b2) (digitVal n1 * 10 + digitVal n2)
          (digitVal e1 * 10 + digitVal e2)) := by
      rw [heq, hp]
      simp [mkDatetime, hyB, hmoB, hdaB, hhoB, hmiB, hseB]
    exact ⟨_, hparse, hsome s _ hparse⟩
  next => simp at h

/-- Claim C7 counterexample: `2025-01-01T99:00:00` matches the fixed-width
`YYYY-MM-DDTHH:MM:SS` digit pattern of the claim yet is returned unchanged
(the parse rejects hour 99), while `2025-1-3T2:0:0` does not match the
pattern (it is 14 characters with one-digit fields) yet is reformatted,
because CPython `strptime` accepts one-digit month, day, hour, minute and
second. -/
theorem format_pub_date_c7_counterexample :
    (matches_pattern_19 "2025-01-01T99:00:00" = true ∧
       format_pub_date "2025-01-01T99:00:00" = "2025-01-01T99:00:00") ∧
    (matches_pattern_19 "2025-1-3T2:0:0" = false ∧
       format_pub_date "2025-1-3T2:0:0" = "03 Jan 2025, 02:00" ∧
       "2025-1-3T2:0:0" ≠ "03 Jan 2025, 02:00") :=
  ⟨⟨rfl, rfl⟩, ⟨rfl, rfl, by decide⟩⟩

theorem format_pub_date_amended_witness :
    format_pub_date "2025-12-31T10:20:30" =
      strftime_display (PyDatetime.mk 2025 12 31 10 20 30) :=
  format_pub_date_amended.1 "2025-12-31T10:20:30" (PyDatetime.mk 2025 12 31 10 20 30) rfl
